import Mathlib

/-!
Verification of the aggregation layer of the DKI education-data API
(`main.py`): a pandas `DataFrame` loaded from a CSV, cleaned once, and
queried through `select_all`, `get_column_names` and `summary_total_by`.

The DataFrame is embedded shallowly: a `Dataset` is an ordered list of
typed columns plus an ordered list of rows, each row an association list
from column names to cell values (this is exactly the shape
`to_dict('records')` exposes).  Cell values carry the pandas dtypes that
matter here: `object` cells (strings), `int64` cells, `float64` cells
(rationals stand in for the finitely many floats that occur), and the
missing value `NaN` (`Val.null`).
-/

/-- A cell value of the DataFrame.  `null` is pandas' `NaN`; `float`
values are represented as rationals. -/
inductive Val where
  | null : Val
  | int : Int → Val
  | float : ℚ → Val
  | str : String → Val
deriving DecidableEq, Repr

/-- A pandas column dtype, restricted to the three dtypes that occur in
this program: `object` (strings), `int64` and `float64`. -/
inductive Dtype where
  | object : Dtype
  | int64 : Dtype
  | float64 : Dtype
deriving DecidableEq, Repr

/-- One row of the DataFrame in `to_dict('records')` form: an ordered
association list from column names to cell values. -/
abbrev Record := List (String × Val)

/-- The DataFrame: ordered, dtype-annotated columns and ordered rows. -/
structure Dataset where
  cols : List (String × Dtype)
  rows : List Record
deriving DecidableEq, Repr

/-- Column names of the Dataset, in native left-to-right order. -/
def Dataset.colNames (df : Dataset) : List String :=
  df.cols.map Prod.fst

/-- Dtype of a named column (first match; `object` for an absent name,
which never arises on well-formed data). -/
def Dataset.dtypeOf (df : Dataset) (c : String) : Dtype :=
  (df.cols.lookup c).getD Dtype.object

/-- Cell of a row at a named column (`null` for an absent name, which
never arises on well-formed data). -/
def rowVal (r : Record) (c : String) : Val :=
  (r.lookup c).getD Val.null

/-- Whether a cell value is admissible in a column of the given dtype:
`int64` columns hold integers, `float64` columns hold floats or `NaN`,
`object` columns hold anything. -/
def cellOk : Dtype → Val → Bool
  | Dtype.object, _ => true
  | Dtype.int64, Val.int _ => true
  | Dtype.int64, _ => false
  | Dtype.float64, Val.float _ => true
  | Dtype.float64, Val.null => true
  | Dtype.float64, _ => false

/-- Well-formedness of a Dataset: column names are distinct (pandas
mangles duplicate CSV headers), every row lists exactly the columns in
native order, and every cell is admissible for its column's dtype. -/
def Dataset.WF (df : Dataset) : Prop :=
  df.colNames.Nodup ∧
    ∀ r ∈ df.rows, r.map Prod.fst = df.colNames ∧
      ∀ p ∈ r, cellOk (df.dtypeOf p.1) p.2 = true

/-- No `NaN` anywhere in the rows (the state of the Dataset after
cleaning). -/
def Dataset.NoNulls (df : Dataset) : Prop :=
  ∀ r ∈ df.rows, ∀ p ∈ r, p.2 ≠ Val.null

/-- Every cell of every non-`object` (that is, non-dimension) column is
an integer (the state of the Dataset after cleaning). -/
def Dataset.IntTyped (df : Dataset) : Prop :=
  ∀ r ∈ df.rows, ∀ p ∈ r, df.dtypeOf p.1 ≠ Dtype.object → ∃ n, p.2 = Val.int n

instance (df : Dataset) : Decidable df.WF :=
  inferInstanceAs (Decidable (df.colNames.Nodup ∧
    ∀ r ∈ df.rows, r.map Prod.fst = df.colNames ∧
      ∀ p ∈ r, cellOk (df.dtypeOf p.1) p.2 = true))

instance (df : Dataset) : Decidable df.NoNulls :=
  inferInstanceAs (Decidable (∀ r ∈ df.rows, ∀ p ∈ r, p.2 ≠ Val.null))

/- ### Cleaning (`DKIEducationData.__clean`)

`__clean` runs three steps on the freshly loaded DataFrame:
`df.drop(['tahun'], axis=1)` (a `KeyError` if the column is absent,
modelled as `none`), `df.fillna(0)` (every `NaN` becomes the integer
`0`, in every column), and
`df[cols] = df[cols].applymap(np.int64)` where `cols` are the columns
whose dtype is not `object`: each of their cells is truncated to an
integer and the columns become `int64`. -/

/-- Remove a named column from the columns and from every row
(`df.drop([c], axis=1)` when the column is present). -/
def dropColumn (df : Dataset) (c : String) : Dataset :=
  { cols := df.cols.filter (fun p => decide (p.1 ≠ c)),
    rows := df.rows.map (fun r => r.filter (fun p => decide (p.1 ≠ c))) }

/-- Replace every `NaN` cell by the integer `0` (`df.fillna(0)`). -/
def fillna0 (df : Dataset) : Dataset :=
  { cols := df.cols,
    rows := df.rows.map (fun r =>
      r.map (fun p => (p.1, if p.2 = Val.null then Val.int 0 else p.2))) }

/-- Truncation of a rational toward zero, as `np.int64` truncates a
float. -/
def truncQ (q : ℚ) : Int :=
  if q < 0 then ⌈q⌉ else ⌊q⌋

/-- Conversion of one cell by `np.int64`: integers unchanged, floats
truncated.  The remaining patterns never arise after `fillna(0)` on a
non-`object` column. -/
def toInt64 : Val → Val
  | Val.int n => Val.int n
  | Val.float q => Val.int (truncQ q)
  | Val.null => Val.int 0
  | Val.str _ => Val.int 0

/-- Apply `np.int64` to every cell of every non-`object` column and
re-type those columns as `int64`
(`df[cols] = df[cols].applymap(np.int64)` for
`cols = df.select_dtypes(exclude=['object']).columns`). -/
def convertNonObject (df : Dataset) : Dataset :=
  { cols := df.cols.map (fun p =>
      if p.2 = Dtype.object then p else (p.1, Dtype.int64)),
    rows := df.rows.map (fun r =>
      r.map (fun p =>
        if df.dtypeOf p.1 = Dtype.object then p else (p.1, toInt64 p.2))) }

/-- The whole of `__clean`: drop `tahun` (failing if absent), fill
`NaN` with `0`, convert the non-`object` columns to `int64`. -/
def clean (df : Dataset) : Option Dataset :=
  if "tahun" ∈ df.colNames then
    some (convertNonObject (fillna0 (dropColumn df "tahun")))
  else
    none

/- ### Ordering of group keys

`groupby(..., sort=True)` (the pandas default used by
`summary_total_by`) emits the groups in ascending order of their key
tuples.  Keys are compared lexicographically; cell values are compared
within a dtype by the underlying order and across dtypes by an
arbitrary fixed rank (a well-formed column never mixes dtypes, so the
cross-dtype case never influences a result). -/

/-- Generic lexicographic comparison of lists from a comparison of
elements. -/
def lexLE {α : Type} [DecidableEq α] (le : α → α → Bool) : List α → List α → Bool
  | [], _ => true
  | _ :: _, [] => false
  | a :: as, b :: bs => if a = b then lexLE le as bs else le a b

/-- Comparison of two characters by code point. -/
def charLE (a b : Char) : Bool := decide (a.toNat ≤ b.toNat)

/-- Lexicographic comparison of strings by code points (the order
pandas sorts string group keys in). -/
def strLE (s t : String) : Bool := lexLE charLE s.data t.data

/-- Rank separating the dtypes of cell values for cross-dtype
comparison. -/
def Val.rank : Val → Nat
  | Val.null => 0
  | Val.int _ => 1
  | Val.float _ => 2
  | Val.str _ => 3

/-- Comparison of two cell values: within a dtype by the underlying
order, across dtypes by rank. -/
def Val.ble : Val → Val → Bool
  | Val.int m, Val.int n => decide (m ≤ n)
  | Val.float p, Val.float q => decide (p ≤ q)
  | Val.str s, Val.str t => strLE s t
  | a, b => decide (a.rank ≤ b.rank)

/-- Comparison of two group-key tuples, lexicographically. -/
def keyLE (k₁ k₂ : List Val) : Bool := lexLE Val.ble k₁ k₂

/- ### Aggregation (`DKIEducationData.summary_total_by`) -/

/-- Whether a row passes `df.query(' | '.join(...))`: at least one
filter pair `(column, value)` matches the row's cell at `column`
against the string `value`. -/
def matchesFilters (filters : List (String × String)) (r : Record) : Bool :=
  filters.any (fun f => decide (rowVal r f.1 = Val.str f.2))

/-- The group-key tuple of a row: its cells at the group columns, in
group order. -/
def keyOf (groups : List String) (r : Record) : List Val :=
  groups.map (rowVal r)

/-- Whether `groupby` keeps a row: none of its group-key cells is `NaN`
(pandas drops groups with missing keys). -/
def hasValidKey (groups : List String) (r : Record) : Bool :=
  (keyOf groups r).all (fun v => decide (v ≠ Val.null))

/-- The columns `.sum()` aggregates: the numeric (non-`object`) columns
that are not group keys, in native column order.  Non-numeric
non-grouped columns are dropped as nuisance columns. -/
def measureCols (df : Dataset) (groups : List String) : List String :=
  (df.cols.filter (fun p =>
    decide (p.2 ≠ Dtype.object) && decide (p.1 ∉ groups))).map Prod.fst

/-- Integer reading of a cell for summation (`NaN` counts as `0`, as
`.sum()` skips it). -/
def valToInt : Val → Int
  | Val.int n => n
  | _ => 0

/-- Rational reading of a cell for summation in a `float64` column. -/
def valToQ : Val → ℚ
  | Val.float q => q
  | Val.int n => (n : ℚ)
  | _ => 0

/-- Column sum of `.sum()` over a list of rows, typed by the column's
dtype. -/
def colSum (df : Dataset) (rows : List Record) (c : String) : Val :=
  if df.dtypeOf c = Dtype.float64 then
    Val.float ((rows.map (fun r => valToQ (rowVal r c))).sum)
  else
    Val.int ((rows.map (fun r => valToInt (rowVal r c))).sum)

/-- The distinct group keys of a list of rows, in ascending order
(`groupby(groups, sort=True)`). -/
def sortedKeys (groups : List String) (rows : List Record) : List (List Val) :=
  List.insertionSort (fun k₁ k₂ => keyLE k₁ k₂ = true)
    ((rows.map (keyOf groups)).dedup)

/-- The summary record of one group: the group columns with their key
values, then every measure column with its sum over the group's rows
(`groupby(groups).sum().reset_index().to_dict('records')`, one entry).
-/
def summaryRecord (df : Dataset) (groups : List String) (rows : List Record)
    (k : List Val) : Record :=
  groups.zip k ++
    (measureCols df groups).map (fun c =>
      (c, colSum df (rows.filter (fun r => decide (keyOf groups r = k))) c))

/-- The list `groupby(groups).sum().reset_index().to_dict('records')`
over a list of rows. -/
def groupSummaries (df : Dataset) (groups : List String) (rows : List Record) :
    List Record :=
  (sortedKeys groups rows).map (summaryRecord df groups rows)

/-- The rows `summary_total_by` aggregates: all rows when `filters` is
empty, otherwise the rows matching at least one filter; in both cases
`groupby` then drops rows with a `NaN` group key. -/
def summaryRows (df : Dataset) (groups : List String)
    (filters : List (String × String)) : List Record :=
  (if filters.length = 0 then df.rows
   else df.rows.filter (matchesFilters filters)).filter (hasValidKey groups)

/-- The aggregated record list `data` of `summary_total_by`, before the
final shape decision. -/
def summaryData (df : Dataset) (groups : List String)
    (filters : List (String × String)) : List Record :=
  groupSummaries df groups (summaryRows df groups filters)

/-- Result shape of `summary_total_by`: a bare record when the
aggregation produced exactly one, otherwise the list. -/
inductive SummaryResult where
  | single : Record → SummaryResult
  | many : List Record → SummaryResult
deriving DecidableEq, Repr

/-- The records of a result, regardless of its shape. -/
def SummaryResult.records : SummaryResult → List Record
  | SummaryResult.single r => [r]
  | SummaryResult.many rs => rs

/-- `DKIEducationData.summary_total_by(groups, filters)`:
filter (OR of equality tests), group, sum, and return
`data.pop() if len(data) == 1 else data`.  (Python's `data.pop()`
returns the last element; a singleton's last element is its head.)
A single grouping column passed as a bare string in Python is the
one-element list here. -/
def summary_total_by (df : Dataset) (groups : List String)
    (filters : List (String × String)) : SummaryResult :=
  let data := summaryData df groups filters
  if data.length = 1 then SummaryResult.single (data.getLast?.getD [])
  else SummaryResult.many data

/-- `DKIEducationData.select_all`: `df.to_dict('records')`. -/
def select_all (df : Dataset) : List Record :=
  df.rows

/-- `DKIEducationData.get_column_names(from_, until)`:
`list(df.loc[:, from_:until].columns)`.  Label slicing on the unique
column index raises a `KeyError` (modelled as `none`) when either
boundary label is absent; otherwise it is the positional slice from the
first boundary's position through the second's, inclusive (empty when
the first lies right of the second). -/
def get_column_names (df : Dataset) (from_ until_ : String) :
    Option (List String) :=
  if from_ ∈ df.colNames ∧ until_ ∈ df.colNames then
    some (((df.colNames).drop (df.colNames.indexOf from_)).take
      (df.colNames.indexOf until_ + 1 - df.colNames.indexOf from_))
  else
    none

/- ### Request handling (`Controller` and the route functions)

Only the parts the claims touch are embedded: `summary_city` (the
`/city/{city}` endpoint) and the percent-decoding `urllib.parse.unquote`
applies to the path value.  FastAPI and the HTTP transport are external
plumbing; each route function merely delegates to the controller. -/

/-- Value of a hexadecimal digit character, if it is one. -/
def hexVal (c : Char) : Option Nat :=
  if '0' ≤ c ∧ c ≤ '9' then some (c.toNat - '0'.toNat)
  else if 'a' ≤ c ∧ c ≤ 'f' then some (c.toNat - 'a'.toNat + 10)
  else if 'A' ≤ c ∧ c ≤ 'F' then some (c.toNat - 'A'.toNat + 10)
  else none

/-- Percent-decoding over a character list: every `%xy` with two hex
digits becomes the character with code `16*x + y`; anything else is
kept verbatim. -/
def percentDecodeAux : List Char → List Char
  | '%' :: a :: b :: rest =>
    match hexVal a, hexVal b with
    | some x, some y => Char.ofNat (16 * x + y) :: percentDecodeAux rest
    | _, _ => '%' :: percentDecodeAux (a :: b :: rest)
  | c :: rest => c :: percentDecodeAux rest
  | [] => []

/-- Model of `urllib.parse.unquote` on single-byte escape sequences
(the only ones these route values use). -/
def percentDecode (s : String) : String :=
  String.mk (percentDecodeAux s.data)

namespace Controller

/-- `Controller.summary`: `summary_total_by('nama_provinsi')`. -/
def summary (df : Dataset) : SummaryResult :=
  summary_total_by df ["nama_provinsi"] []

/-- `Controller.summary_city(city)`: group by the city column,
filtered to the percent-decoded city name. -/
def summary_city (df : Dataset) (city : String) : SummaryResult :=
  summary_total_by df ["nama_kabupaten/kota"]
    [("nama_kabupaten/kota", percentDecode city)]

end Controller

namespace Routes

/-- The `/city/{city}` route function: it only delegates to
`Controller.summary_city`. -/
def summary_city (df : Dataset) (city : String) : SummaryResult :=
  Controller.summary_city df city

end Routes

/-- Transcription of the specification's description of the city
endpoint, for the refinement claim: call `summarizeBy` directly with
group field `nama_kabupaten/kota` and the single equality filter on the
percent-decoded city name. -/
def specCitySummary (df : Dataset) (city : String) : SummaryResult :=
  summary_total_by df ["nama_kabupaten/kota"]
    [("nama_kabupaten/kota", percentDecode city)]

/- ### Query operations as state transformers

Every query method reads `self.df` and builds its result from fresh
objects (`to_dict`, `query`, `groupby(...).sum()` all return new
containers; `data.pop()` mutates only the local `data` list), so each
is embedded as a state transformer returning the result together with
the Dataset it leaves behind. -/

/-- One query operation of the data-access layer. -/
inductive QueryOp where
  | selectAll : QueryOp
  | columnsBetween : String → String → QueryOp
  | summarize : List String → List (String × String) → QueryOp

/-- The result of one query operation. -/
inductive QueryResult where
  | raw : List Record → QueryResult
  | columns : Option (List String) → QueryResult
  | agg : SummaryResult → QueryResult
deriving DecidableEq

/-- Run one query operation: produce its result and the Dataset left in
`self.df` afterwards (no method reassigns or mutates it). -/
def runOp (df : Dataset) : QueryOp → QueryResult × Dataset
  | QueryOp.selectAll => (QueryResult.raw (select_all df), df)
  | QueryOp.columnsBetween a b => (QueryResult.columns (get_column_names df a b), df)
  | QueryOp.summarize groups filters =>
    (QueryResult.agg (summary_total_by df groups filters), df)

/-- Run a sequence of query operations, threading the Dataset state. -/
def runProg (df : Dataset) : List QueryOp → List QueryResult × Dataset
  | [] => ([], df)
  | op :: ops =>
    let step := runOp df op
    let rest := runProg step.2 ops
    (step.1 :: rest.1, rest.2)

/- ### Concrete sample data

Modelled from the spec: the CSV file
`data-dki-menurut-pendidikan-tahun-2014.csv` is not part of the source
tree; the spec records its load-bearing layout — the four dimension
columns `nama_provinsi`, `nama_kabupaten/kota`, `nama_kecamatan`,
`nama_kelurahan` in hierarchy order, followed by integer measure
columns per education level up to `strata_III`, plus the constant
`tahun` column dropped by cleaning.  These small datasets follow that
layout and exist only to instantiate theorems on concrete inputs. -/

/-- Modelled from the spec: a miniature raw (pre-clean) Dataset in the
documented CSV layout, with the constant `tahun` column, a `NaN`
measure cell and `float64` measure columns as `read_csv` yields them. -/
def dkiRaw : Dataset :=
  { cols := [("tahun", Dtype.int64),
             ("nama_provinsi", Dtype.object),
             ("nama_kabupaten/kota", Dtype.object),
             ("nama_kecamatan", Dtype.object),
             ("nama_kelurahan", Dtype.object),
             ("sd", Dtype.float64),
             ("strata_III", Dtype.float64)],
    rows := [[("tahun", Val.int 2014),
              ("nama_provinsi", Val.str "DKI JAKARTA"),
              ("nama_kabupaten/kota", Val.str "JAKARTA UTARA"),
              ("nama_kecamatan", Val.str "KOJA"),
              ("nama_kelurahan", Val.str "TUGU SELATAN"),
              ("sd", Val.float 120),
              ("strata_III", Val.null)],
             [("tahun", Val.int 2014),
              ("nama_provinsi", Val.str "DKI JAKARTA"),
              ("nama_kabupaten/kota", Val.str "JAKARTA UTARA"),
              ("nama_kecamatan", Val.str "PADEMANGAN"),
              ("nama_kelurahan", Val.str "ANCOL"),
              ("sd", Val.float 80),
              ("strata_III", Val.float 2)],
             [("tahun", Val.int 2014),
              ("nama_provinsi", Val.str "DKI JAKARTA"),
              ("nama_kabupaten/kota", Val.str "JAKARTA BARAT"),
              ("nama_kecamatan", Val.str "KEBON JERUK"),
              ("nama_kelurahan", Val.str "DURI KEPA"),
              ("sd", Val.float 200),
              ("strata_III", Val.float 5)]] }

/-- Modelled from the spec: the cleaned form of `dkiRaw` — `tahun`
dropped, `NaN` filled with `0`, measures `int64`.  Note the first-seen
city order is `JAKARTA UTARA` before `JAKARTA BARAT`. -/
def dkiClean : Dataset :=
  { cols := [("nama_provinsi", Dtype.object),
             ("nama_kabupaten/kota", Dtype.object),
             ("nama_kecamatan", Dtype.object),
             ("nama_kelurahan", Dtype.object),
             ("sd", Dtype.int64),
             ("strata_III", Dtype.int64)],
    rows := [[("nama_provinsi", Val.str "DKI JAKARTA"),
              ("nama_kabupaten/kota", Val.str "JAKARTA UTARA"),
              ("nama_kecamatan", Val.str "KOJA"),
              ("nama_kelurahan", Val.str "TUGU SELATAN"),
              ("sd", Val.int 120),
              ("strata_III", Val.int 0)],
             [("nama_provinsi", Val.str "DKI JAKARTA"),
              ("nama_kabupaten/kota", Val.str "JAKARTA UTARA"),
              ("nama_kecamatan", Val.str "PADEMANGAN"),
              ("nama_kelurahan", Val.str "ANCOL"),
              ("sd", Val.int 80),
              ("strata_III", Val.int 2)],
             [("nama_provinsi", Val.str "DKI JAKARTA"),
              ("nama_kabupaten/kota", Val.str "JAKARTA BARAT"),
              ("nama_kecamatan", Val.str "KEBON JERUK"),
              ("nama_kelurahan", Val.str "DURI KEPA"),
              ("sd", Val.int 200),
              ("strata_III", Val.int 5)]] }

/-- A two-column Dataset used to exercise `summary_total_by` when a
numeric measure column is itself among the grouping columns. -/
def exMeasureGrouped : Dataset :=
  { cols := [("city", Dtype.object), ("n", Dtype.int64)],
    rows := [[("city", Val.str "A"), ("n", Val.int 1)],
             [("city", Val.str "A"), ("n", Val.int 1)]] }

/- ### Helper lemmas on association-list lookup -/

theorem lookup_eq_some_mem {α β : Type} [DecidableEq α] {l : List (α × β)}
    {a : α} {b : β} (h : l.lookup a = some b) : (a, b) ∈ l := by
  induction l with
  | nil => simp [List.lookup] at h
  | cons p l ih =>
    cases hpa : (a == p.1) with
    | true =>
      have ha : a = p.1 := by simpa using hpa
      simp only [List.lookup, hpa] at h
      cases h
      obtain ⟨p1, p2⟩ := p
      simp_all
    | false =>
      simp only [List.lookup, hpa] at h
      exact List.mem_cons_of_mem _ (ih h)

theorem lookup_isSome_of_mem_keys {α β : Type} [DecidableEq α]
    {l : List (α × β)} {a : α} (h : a ∈ l.map Prod.fst) :
    ∃ b, l.lookup a = some b := by
  induction l with
  | nil => simp at h
  | cons p l ih =>
    rw [List.map_cons, List.mem_cons] at h
    by_cases hpa : a = p.1
    · exact ⟨p.2, by simp [List.lookup, hpa]⟩
    · rcases h with h | h
      · exact absurd h hpa
      · obtain ⟨b, hb⟩ := ih h
        refine ⟨b, ?_⟩
        have : (a == p.1) = false := by simpa using hpa
        simp only [List.lookup, this]
        exact hb

theorem lookup_append_of_not_mem_keys {α β : Type} [DecidableEq α]
    {l₁ l₂ : List (α × β)} {a : α} (h : a ∉ l₁.map Prod.fst) :
    (l₁ ++ l₂).lookup a = l₂.lookup a := by
  induction l₁ with
  | nil => rfl
  | cons p l ih =>
    rw [List.map_cons, List.mem_cons] at h
    push_neg at h
    have : (a == p.1) = false := by simpa using h.1
    rw [List.cons_append]
    simp only [List.lookup, this]
    exact ih h.2

theorem lookup_map_mk_self {α β : Type} [DecidableEq α] {l : List α}
    (f : α → β) {a : α} (h : a ∈ l) :
    (l.map (fun c => (c, f c))).lookup a = some (f a) := by
  induction l with
  | nil => simp at h
  | cons c l ih =>
    rw [List.mem_cons] at h
    by_cases hac : a = c
    · simp [List.lookup, hac]
    · rcases h with h | h
      · exact absurd h hac
      · have : (a == c) = false := by simpa using hac
        rw [List.map_cons]
        simp only [List.lookup, this]
        exact ih h

theorem lookup_map_snd {α β γ : Type} [DecidableEq α] (g : β → γ)
    (l : List (α × β)) (a : α) :
    (l.map (fun p => (p.1, g p.2))).lookup a = (l.lookup a).map g := by
  induction l with
  | nil => rfl
  | cons p l ih =>
    cases hpa : (a == p.1) with
    | true => simp only [List.map_cons, List.lookup, hpa, Option.map_some']
    | false =>
      rw [List.map_cons]
      simp only [List.lookup, hpa]
      exact ih

/- ### Properties of the lexicographic comparisons -/

theorem lexLE_total {α : Type} [DecidableEq α] (le : α → α → Bool)
    (h : ∀ a b, le a b = true ∨ le b a = true) :
    ∀ xs ys : List α, lexLE le xs ys = true ∨ lexLE le ys xs = true := by
  intro xs
  induction xs with
  | nil => intro ys; left; rfl
  | cons x xs ih =>
    intro ys
    cases ys with
    | nil => right; rfl
    | cons y ys =>
      by_cases hxy : x = y
      · subst hxy
        rcases ih ys with h1 | h1
        · left; simpa [lexLE] using h1
        · right; simpa [lexLE] using h1
      · rcases h x y with h1 | h1
        · left; simp [lexLE, hxy, h1]
        · right; simp [lexLE, Ne.symm hxy, h1]

theorem lexLE_trans {α : Type} [DecidableEq α] (le : α → α → Bool)
    (htr : ∀ a b c, le a b = true → le b c = true → le a c = true)
    (has : ∀ a b, le a b = true → le b a = true → a = b) :
    ∀ xs ys zs : List α, lexLE le xs ys = true → lexLE le ys zs = true →
      lexLE le xs zs = true := by
  intro xs
  induction xs with
  | nil => intro ys zs _ _; rfl
  | cons x xs ih =>
    intro ys zs h1 h2
    cases ys with
    | nil => simp [lexLE] at h1
    | cons y ys =>
      cases zs with
      | nil => simp [lexLE] at h2
      | cons z zs =>
        by_cases hxy : x = y
        · subst hxy
          by_cases hyz : x = z
          · subst hyz
            simp only [lexLE, if_pos rfl] at h1 h2 ⊢
            exact ih ys zs h1 h2
          · simpa [lexLE, hyz] using h2
        · by_cases hyz : y = z
          · subst hyz
            simpa [lexLE, hxy] using h1
          · simp only [lexLE, if_neg hxy] at h1
            simp only [lexLE, if_neg hyz] at h2
            have hxz : x ≠ z := fun he => hxy (has x y h1 (he ▸ h2))
            simp only [lexLE, if_neg hxz]
            exact htr x y z h1 h2

theorem lexLE_antisymm {α : Type} [DecidableEq α] (le : α → α → Bool)
    (has : ∀ a b, le a b = true → le b a = true → a = b) :
    ∀ xs ys : List α, lexLE le xs ys = true → lexLE le ys xs = true → xs = ys := by
  intro xs
  induction xs with
  | nil =>
    intro ys _ h2
    cases ys with
    | nil => rfl
    | cons y ys => simp [lexLE] at h2
  | cons x xs ih =>
    intro ys h1 h2
    cases ys with
    | nil => simp [lexLE] at h1
    | cons y ys =>
      by_cases hxy : x = y
      · subst hxy
        simp only [lexLE, if_pos rfl] at h1 h2
        rw [ih ys h1 h2]
      · simp only [lexLE, if_neg hxy, if_neg (Ne.symm hxy)] at h1 h2
        exact absurd (has x y h1 h2) hxy

theorem charLE_total (a b : Char) : charLE a b = true ∨ charLE b a = true := by
  simp only [charLE, decide_eq_true_eq]
  exact Nat.le_total a.toNat b.toNat

theorem charLE_trans (a b c : Char) (h1 : charLE a b = true)
    (h2 : charLE b c = true) : charLE a c = true := by
  simp only [charLE, decide_eq_true_eq] at h1 h2 ⊢
  exact Nat.le_trans h1 h2

theorem charLE_antisymm (a b : Char) (h1 : charLE a b = true)
    (h2 : charLE b a = true) : a = b := by
  simp only [charLE, decide_eq_true_eq] at h1 h2
  have h : a.toNat = b.toNat := Nat.le_antisymm h1 h2
  rw [← Char.ofNat_toNat a, ← Char.ofNat_toNat b, h]

theorem strLE_total (s t : String) : strLE s t = true ∨ strLE t s = true :=
  lexLE_total charLE charLE_total s.data t.data

theorem strLE_trans (s t u : String) (h1 : strLE s t = true)
    (h2 : strLE t u = true) : strLE s u = true :=
  lexLE_trans charLE charLE_trans charLE_antisymm s.data t.data u.data h1 h2

theorem strLE_antisymm (s t : String) (h1 : strLE s t = true)
    (h2 : strLE t s = true) : s = t := by
  have h := lexLE_antisymm charLE charLE_antisymm s.data t.data h1 h2
  cases s
  cases t
  exact congrArg String.mk h

theorem Val.ble_total (a b : Val) : Val.ble a b = true ∨ Val.ble b a = true := by
  cases a <;> cases b <;>
    simp only [Val.ble, Val.rank, decide_eq_true_eq] <;>
    first
      | exact Nat.le_total _ _
      | exact Int.le_total _ _
      | exact le_total _ _
      | exact strLE_total _ _

theorem Val.ble_antisymm (a b : Val) (h1 : Val.ble a b = true)
    (h2 : Val.ble b a = true) : a = b := by
  cases a <;> cases b <;>
    simp only [Val.ble, Val.rank, decide_eq_true_eq] at h1 h2 <;>
    first
      | rfl
      | omega
      | exact congrArg _ (le_antisymm h1 h2)
      | exact congrArg _ (strLE_antisymm _ _ h1 h2)

theorem Val.ble_trans (a b c : Val) (h1 : Val.ble a b = true)
    (h2 : Val.ble b c = true) : Val.ble a c = true := by
  cases a <;> cases b <;> cases c <;>
    simp only [Val.ble, Val.rank, decide_eq_true_eq] at h1 h2 ⊢ <;>
    first
      | rfl
      | omega
      | exact le_trans h1 h2
      | exact strLE_trans _ _ _ h1 h2

theorem keyLE_total (k₁ k₂ : List Val) : keyLE k₁ k₂ = true ∨ keyLE k₂ k₁ = true :=
  lexLE_total Val.ble Val.ble_total k₁ k₂

theorem keyLE_trans (k₁ k₂ k₃ : List Val) (h1 : keyLE k₁ k₂ = true)
    (h2 : keyLE k₂ k₃ = true) : keyLE k₁ k₃ = true :=
  lexLE_trans Val.ble Val.ble_trans Val.ble_antisymm k₁ k₂ k₃ h1 h2

instance : IsTotal (List Val) (fun k₁ k₂ => keyLE k₁ k₂ = true) :=
  ⟨keyLE_total⟩

instance : IsTrans (List Val) (fun k₁ k₂ => keyLE k₁ k₂ = true) :=
  ⟨keyLE_trans⟩

/- ### Helper lemmas on the aggregation pipeline -/

theorem records_summary_total_by (df : Dataset) (groups : List String)
    (filters : List (String × String)) :
    (summary_total_by df groups filters).records = summaryData df groups filters := by
  unfold summary_total_by
  by_cases h : (summaryData df groups filters).length = 1
  · obtain ⟨a, ha⟩ := List.length_eq_one.mp h
    simp [SummaryResult.records, ha]
  · simp [SummaryResult.records, h]

theorem sum_map_filter_split {α : Type} (p : α → Bool) (f : α → Int) (l : List α) :
    ((l.filter p).map f).sum + ((l.filter (fun a => !p a)).map f).sum
      = (l.map f).sum := by
  induction l with
  | nil => simp
  | cons a l ih =>
    cases hpa : p a <;> simp [List.filter_cons, hpa] <;> omega

theorem sum_partition {α : Type} (key : α → List Val) (f : α → Int) :
    ∀ (keys : List (List Val)) (rows : List α), keys.Nodup →
      (∀ r ∈ rows, key r ∈ keys) →
      (keys.map (fun k => ((rows.filter (fun r => decide (key r = k))).map f).sum)).sum
        = (rows.map f).sum := by
  intro keys
  induction keys with
  | nil =>
    intro rows _ h
    cases rows with
    | nil => simp
    | cons r rs => exact absurd (h r (by simp)) (by simp)
  | cons k ks ih =>
    intro rows hnd h
    have hk : k ∉ ks := (List.nodup_cons.mp hnd).1
    have hfilter : ∀ k' ∈ ks,
        rows.filter (fun r => decide (key r = k'))
          = (rows.filter (fun r => !decide (key r = k))).filter
              (fun r => decide (key r = k')) := by
      intro k' hk'
      have hkk : k' ≠ k := fun he => hk (he ▸ hk')
      rw [List.filter_filter]
      apply List.filter_congr
      intro a _
      cases hka : decide (key a = k') with
      | false => simp
      | true =>
        have hak : key a = k' := of_decide_eq_true hka
        have hdk : decide (key a = k) = false := by
          apply decide_eq_false
          rw [hak]
          exact hkk
        simp [hdk]
    have hih :
        (ks.map (fun k' =>
          (((rows.filter (fun r => !decide (key r = k))).filter
            (fun r => decide (key r = k'))).map f).sum)).sum
          = ((rows.filter (fun r => !decide (key r = k))).map f).sum := by
      apply ih _ (List.nodup_cons.mp hnd).2
      intro r hr
      rw [List.mem_filter] at hr
      obtain ⟨hrmem, hrne⟩ := hr
      have hne : key r ≠ k := by
        intro he
        simp [he] at hrne
      rcases List.mem_cons.mp (h r hrmem) with hmem | hmem
      · exact absurd hmem hne
      · exact hmem
    have hmap :
        ks.map (fun k' => ((rows.filter (fun r => decide (key r = k'))).map f).sum)
          = ks.map (fun k' =>
            (((rows.filter (fun r => !decide (key r = k))).filter
              (fun r => decide (key r = k'))).map f).sum) :=
      List.map_congr_left (fun k' hk' => by rw [hfilter k' hk'])
    rw [List.map_cons, List.sum_cons, hmap, hih,
      ← sum_map_filter_split (fun r => decide (key r = k)) f rows]

theorem rowVal_ne_null_of_WF {df : Dataset} {r : Record} {c : String}
    (hwf : df.WF) (hnn : df.NoNulls) (hr : r ∈ df.rows) (hc : c ∈ df.colNames) :
    rowVal r c ≠ Val.null := by
  have hkeys : r.map Prod.fst = df.colNames := (hwf.2 r hr).1
  obtain ⟨b, hb⟩ := lookup_isSome_of_mem_keys (l := r) (a := c) (by rw [hkeys]; exact hc)
  have hmem : (c, b) ∈ r := lookup_eq_some_mem hb
  have hbn : b ≠ Val.null := hnn r hr (c, b) hmem
  simp [rowVal, hb, hbn]

theorem summaryRows_no_filters {df : Dataset} {groups : List String}
    (hwf : df.WF) (hnn : df.NoNulls) (hg : ∀ g ∈ groups, g ∈ df.colNames) :
    summaryRows df groups [] = df.rows := by
  unfold summaryRows
  rw [List.length_nil, if_pos rfl]
  apply List.filter_eq_self.mpr
  intro r hr
  unfold hasValidKey keyOf
  rw [List.all_eq_true]
  intro v hv
  rw [List.mem_map] at hv
  obtain ⟨g, hgmem, rfl⟩ := hv
  exact decide_eq_true (rowVal_ne_null_of_WF hwf hnn hr (hg g hgmem))

theorem mem_measureCols {df : Dataset} {m : String} {groups : List String}
    (hm : df.dtypeOf m ≠ Dtype.object) (hmg : m ∉ groups) :
    m ∈ measureCols df groups := by
  unfold measureCols
  cases hl : df.cols.lookup m with
  | none => exact absurd (by simp [Dataset.dtypeOf, hl]) hm
  | some t =>
    have ht : t ≠ Dtype.object := by
      rw [Dataset.dtypeOf, hl] at hm
      exact hm
    have hmem : (m, t) ∈ df.cols := lookup_eq_some_mem hl
    apply List.mem_map_of_mem Prod.fst (a := (m, t))
    rw [List.mem_filter]
    exact ⟨hmem, by simp [ht, hmg]⟩

theorem rowVal_summaryRecord_measure (df : Dataset) (groups : List String)
    (rows : List Record) (k : List Val) {m : String}
    (hm : m ∈ measureCols df groups) (hmg : m ∉ groups) :
    rowVal (summaryRecord df groups rows k) m
      = colSum df (rows.filter (fun r => decide (keyOf groups r = k))) m := by
  unfold summaryRecord rowVal
  rw [lookup_append_of_not_mem_keys, lookup_map_mk_self _ hm]
  · rfl
  · intro hmem
    rw [List.mem_map] at hmem
    obtain ⟨p, hp, hpm⟩ := hmem
    exact hmg (hpm ▸ (List.of_mem_zip hp).1)

theorem sortedKeys_nodup (groups : List String) (rows : List Record) :
    (sortedKeys groups rows).Nodup :=
  (List.perm_insertionSort _ _).symm.nodup (List.nodup_dedup _)

theorem mem_sortedKeys_iff {groups : List String} {rows : List Record}
    {k : List Val} :
    k ∈ sortedKeys groups rows ↔ k ∈ rows.map (keyOf groups) := by
  unfold sortedKeys
  rw [(List.perm_insertionSort _ _).mem_iff, List.mem_dedup]

theorem keyOf_summaryRecord {groups : List String} (k : List Val) (rest : Record)
    (hnd : groups.Nodup) (hlen : k.length = groups.length) :
    keyOf groups (groups.zip k ++ rest) = k := by
  induction groups generalizing k rest with
  | nil =>
    cases k with
    | nil => rfl
    | cons v vs => simp at hlen
  | cons g gs ih =>
    cases k with
    | nil => simp at hlen
    | cons v vs =>
      have hgnotin : g ∉ gs := (List.nodup_cons.mp hnd).1
      unfold keyOf
      rw [List.map_cons]
      have hhead : rowVal ((g :: gs).zip (v :: vs) ++ rest) g = v := by
        simp [List.zip_cons_cons, rowVal, List.lookup]
      have htail : gs.map (rowVal ((g :: gs).zip (v :: vs) ++ rest))
          = gs.map (rowVal (gs.zip vs ++ rest)) := by
        apply List.map_congr_left
        intro g' hg'
        have hne : (g' == g) = false := by
          simp only [beq_eq_false_iff_ne, ne_eq]
          intro he
          exact hgnotin (he ▸ hg')
        simp only [rowVal, List.zip_cons_cons, List.cons_append, List.lookup, hne]
        rfl
      rw [hhead, htail]
      have := ih vs rest (List.nodup_cons.mp hnd).2
        (by simpa using hlen)
      unfold keyOf at this
      rw [this]

theorem drop_take_eq_filter_indexOf :
    ∀ (l : List String), l.Nodup → ∀ i j : Nat,
      (l.drop i).take (j + 1 - i)
        = l.filter (fun c => decide (i ≤ l.indexOf c) && decide (l.indexOf c ≤ j)) := by
  intro l
  induction l with
  | nil => intro _ i j; simp
  | cons a l ih =>
    intro hnd i j
    have hanotin : a ∉ l := (List.nodup_cons.mp hnd).1
    have hidx : ∀ x ∈ l, (a :: l).indexOf x = l.indexOf x + 1 := by
      intro x hx
      have hxa : x ≠ a := fun he => hanotin (he ▸ hx)
      exact List.indexOf_cons_ne l (Ne.symm hxa)
    cases i with
    | zero =>
      cases j with
      | zero =>
        rw [List.drop_zero]
        have htake : (a :: l).take (0 + 1 - 0) = [a] := by simp
        rw [htake, List.filter_cons]
        have ha : (decide (0 ≤ (a :: l).indexOf a) && decide ((a :: l).indexOf a ≤ 0)) = true := by
          simp [List.indexOf_cons_self]
        rw [ha, if_pos rfl]
        have hrest : l.filter (fun c =>
            decide (0 ≤ (a :: l).indexOf c) && decide ((a :: l).indexOf c ≤ 0)) = [] := by
          rw [List.filter_eq_nil_iff]
          intro x hx
          rw [hidx x hx]
          simp
        rw [hrest]
      | succ j' =>
        rw [List.drop_zero]
        have htake : (a :: l).take (j' + 1 + 1 - 0) = a :: l.take (j' + 1) := by
          simp [List.take_succ_cons]
        rw [htake, List.filter_cons]
        have ha : (decide (0 ≤ (a :: l).indexOf a) && decide ((a :: l).indexOf a ≤ j' + 1)) = true := by
          simp [List.indexOf_cons_self]
        rw [ha, if_pos rfl]
        have hrest : l.filter (fun c =>
            decide (0 ≤ (a :: l).indexOf c) && decide ((a :: l).indexOf c ≤ j' + 1))
              = l.filter (fun c => decide (0 ≤ l.indexOf c) && decide (l.indexOf c ≤ j')) := by
          apply List.filter_congr
          intro x hx
          rw [hidx x hx]
          simp [Nat.succ_le_succ_iff]
        rw [hrest, ← ih (List.nodup_cons.mp hnd).2 0 j', List.drop_zero,
          Nat.sub_zero]
    | succ i' =>
      cases j with
        | zero =>
          have htake : ((a :: l).drop (i' + 1)).take (0 + 1 - (i' + 1)) = [] := by
            cases i' <;> simp
          rw [htake]
          symm
          rw [List.filter_eq_nil_iff]
          intro x hx
          rcases List.mem_cons.mp hx with hxa | hxl
          · subst hxa
            simp [List.indexOf_cons_self]
          · rw [hidx x hxl]
            simp
        | succ j' =>
          have hdrop : (a :: l).drop (i' + 1) = l.drop i' := by simp
          have harith : j' + 1 + 1 - (i' + 1) = j' + 1 - i' := by omega
          rw [hdrop, harith, ih (List.nodup_cons.mp hnd).2 i' j', List.filter_cons]
          have ha : (decide (i' + 1 ≤ (a :: l).indexOf a) && decide ((a :: l).indexOf a ≤ j' + 1)) = false := by
            simp [List.indexOf_cons_self]
          rw [ha, if_neg (by simp)]
          apply List.filter_congr
          intro x hx
          rw [hidx x hx]
          simp [Nat.succ_le_succ_iff]

theorem runOp_state (df : Dataset) (op : QueryOp) : (runOp df op).2 = df := by
  cases op <;> rfl

theorem runProg_state : ∀ (prog : List QueryOp) (df : Dataset),
    (runProg df prog).2 = df := by
  intro prog
  induction prog with
  | nil => intro df; rfl
  | cons op ops ih =>
    intro df
    simp only [runProg]
    rw [ih (runOp df op).2, runOp_state]

/- ### The claims -/

/-- C2: when `filters` is non-empty, `summary_total_by` aggregates
exactly the rows matching at least one filter — a filter matches a row
exactly when the row's cell at the filter's field equals the filter's
value — and the partition-and-sum applied to them is the same one the
filter-free branch applies to the restricted Dataset. -/
theorem summary_filter_or_semantics (df : Dataset) (groups : List String)
    (filters : List (String × String)) (hne : filters ≠ []) :
    summary_total_by df groups filters
      = summary_total_by ⟨df.cols, df.rows.filter (matchesFilters filters)⟩ groups []
    ∧ ∀ r : Record,
        matchesFilters filters r = true ↔ ∃ f ∈ filters, rowVal r f.1 = Val.str f.2 := by
  constructor
  · have hlen : ¬ filters.length = 0 := by
      simpa [List.length_eq_zero] using hne
    unfold summary_total_by summaryData summaryRows
    rw [if_neg hlen, List.length_nil, if_pos rfl]
    rfl
  · intro r
    simp [matchesFilters, List.any_eq_true]

/-- Witness for C2: the filtered and the restricted-Dataset summaries
agree on concrete data, and the filter predicate is the stated
disjunction of equality tests on a concrete row. -/
theorem summary_filter_or_semantics_witness :
    (summary_total_by dkiClean ["nama_kecamatan"]
        [("nama_kabupaten/kota", "JAKARTA UTARA")]
      = summary_total_by
          ⟨dkiClean.cols,
           dkiClean.rows.filter
             (matchesFilters [("nama_kabupaten/kota", "JAKARTA UTARA")])⟩
          ["nama_kecamatan"] [])
    ∧ (matchesFilters [("nama_kabupaten/kota", "JAKARTA UTARA")]
          (dkiClean.rows.getD 0 []) = true
        ↔ ∃ f ∈ [("nama_kabupaten/kota", "JAKARTA UTARA")],
            rowVal (dkiClean.rows.getD 0 []) f.1 = Val.str f.2) :=
  ⟨(summary_filter_or_semantics dkiClean ["nama_kecamatan"]
      [("nama_kabupaten/kota", "JAKARTA UTARA")] (by decide)).1,
   (summary_filter_or_semantics dkiClean ["nama_kecamatan"]
      [("nama_kabupaten/kota", "JAKARTA UTARA")] (by decide)).2
      (dkiClean.rows.getD 0 [])⟩

/-- C3: whenever the aggregation produces exactly one summary record,
`summary_total_by` returns that record bare; with zero or two or more
records it returns the ordered list. -/
theorem summary_result_shape (df : Dataset) (groups : List String)
    (filters : List (String × String)) :
    (∀ r : Record, summaryData df groups filters = [r] →
      summary_total_by df groups filters = SummaryResult.single r)
    ∧ ((summaryData df groups filters).length ≠ 1 →
      summary_total_by df groups filters
        = SummaryResult.many (summaryData df groups filters)) := by
  constructor
  · intro r hr
    simp [summary_total_by, hr]
  · intro h
    simp [summary_total_by, h]

/-- Witness for C3: a one-group aggregation collapses to a bare record
on concrete data. -/
theorem summary_result_shape_witness :
    summary_total_by dkiClean ["nama_kabupaten/kota"]
        [("nama_kabupaten/kota", "JAKARTA UTARA")]
      = SummaryResult.single
          [("nama_kabupaten/kota", Val.str "JAKARTA UTARA"),
           ("sd", Val.int 200), ("strata_III", Val.int 2)] :=
  (summary_result_shape dkiClean ["nama_kabupaten/kota"]
    [("nama_kabupaten/kota", "JAKARTA UTARA")]).1 _ (by decide)

/-- C4: a non-empty filter list over fields of the Dataset that matches
no row yields the empty list of records — not an error and not a bare
record. -/
theorem summary_no_match_empty (df : Dataset) (groups : List String)
    (filters : List (String × String)) (hne : filters ≠ [])
    (_hfields : ∀ f ∈ filters, f.1 ∈ df.colNames)
    (hnomatch : ∀ r ∈ df.rows, matchesFilters filters r = false) :
    summary_total_by df groups filters = SummaryResult.many [] := by
  have hlen : ¬ filters.length = 0 := by
    simpa [List.length_eq_zero] using hne
  have hfil : df.rows.filter (matchesFilters filters) = [] := by
    rw [List.filter_eq_nil_iff]
    intro r hr
    simp [hnomatch r hr]
  have hrows : summaryRows df groups filters = [] := by
    unfold summaryRows
    rw [if_neg hlen, hfil]
    rfl
  have hdata : summaryData df groups filters = [] := by
    unfold summaryData groupSummaries sortedKeys
    rw [hrows]
    rfl
  simp [summary_total_by, hdata]

/-- Witness for C4: filtering on a city absent from the data yields the
empty list. -/
theorem summary_no_match_empty_witness :
    summary_total_by dkiClean ["nama_kabupaten/kota"]
        [("nama_kabupaten/kota", "BOGOR")] = SummaryResult.many [] :=
  summary_no_match_empty dkiClean ["nama_kabupaten/kota"]
    [("nama_kabupaten/kota", "BOGOR")] (by decide) (by decide) (by decide)

/-- C7: when either boundary column is absent from the Dataset,
`get_column_names` fails (the `KeyError` of pandas label slicing,
modelled as `none`) instead of returning a list. -/
theorem get_column_names_absent (df : Dataset) (from_ until_ : String)
    (h : from_ ∉ df.colNames ∨ until_ ∉ df.colNames) :
    get_column_names df from_ until_ = none := by
  unfold get_column_names
  rw [if_neg (by tauto)]

/-- Witness for C7: an absent right boundary yields the failure. -/
theorem get_column_names_absent_witness :
    get_column_names dkiClean "nama_provinsi" "bogor" = none :=
  get_column_names_absent dkiClean "nama_provinsi" "bogor" (Or.inr (by decide))

/-- C8: the `/city/{city}` route returns exactly what the spec's direct
`summarizeBy` call — group field `nama_kabupaten/kota`, single equality
filter on the percent-decoded city — returns, for every Dataset and
every path value; in particular `/city/JAKARTA%20UTARA` yields the same
bare single record as the direct call. -/
theorem city_route_refines_spec :
    (∀ (df : Dataset) (city : String),
      Routes.summary_city df city = specCitySummary df city)
    ∧ Routes.summary_city dkiClean "JAKARTA%20UTARA"
        = SummaryResult.single
            [("nama_kabupaten/kota", Val.str "JAKARTA UTARA"),
             ("sd", Val.int 200), ("strata_III", Val.int 2)]
    ∧ specCitySummary dkiClean "JAKARTA%20UTARA"
        = SummaryResult.single
            [("nama_kabupaten/kota", Val.str "JAKARTA UTARA"),
             ("sd", Val.int 200), ("strata_III", Val.int 2)] :=
  ⟨fun _ _ => rfl, by decide, by decide⟩

/-- C9: no query operation changes the Dataset: after any sequence of
queries the state is the original Dataset, and the same query issued
after any two histories returns the same result. -/
theorem queries_leave_dataset_unchanged :
    (∀ (df : Dataset) (prog : List QueryOp), (runProg df prog).2 = df)
    ∧ ∀ (df : Dataset) (ops₁ ops₂ : List QueryOp) (op : QueryOp),
        (runOp (runProg df ops₁).2 op).1 = (runOp (runProg df ops₂).2 op).1 :=
  ⟨fun df prog => runProg_state prog df,
    fun df ops₁ ops₂ op => by rw [runProg_state ops₁ df, runProg_state ops₂ df]⟩

/- ### Helper lemmas on the cleaning pipeline -/

theorem convertNonObject_cols_snd (d : Dataset) :
    (convertNonObject d).cols
      = d.cols.map (fun p =>
          (p.1, if p.2 = Dtype.object then p.2 else Dtype.int64)) := by
  unfold convertNonObject
  apply List.map_congr_left
  intro p _
  by_cases hob : p.2 = Dtype.object
  · rw [if_pos hob, if_pos hob]
  · simp [hob]

theorem convertNonObject_dtypeOf (d : Dataset) (c : String) :
    (convertNonObject d).dtypeOf c
      = if d.dtypeOf c = Dtype.object then Dtype.object else Dtype.int64 := by
  show ((convertNonObject d).cols.lookup c).getD Dtype.object = _
  rw [convertNonObject_cols_snd,
    lookup_map_snd (fun t => if t = Dtype.object then t else Dtype.int64) d.cols c]
  unfold Dataset.dtypeOf
  cases d.cols.lookup c with
  | none => simp
  | some t => by_cases hob : t = Dtype.object <;> simp [hob]

theorem toInt64_is_int (v : Val) : ∃ n, toInt64 v = Val.int n := by
  cases v <;> exact ⟨_, rfl⟩

theorem fillna0_NoNulls (d : Dataset) : (fillna0 d).NoNulls := by
  intro r hr p hp
  rw [show (fillna0 d).rows = d.rows.map (fun r => r.map (fun q =>
      (q.1, if q.2 = Val.null then Val.int 0 else q.2))) from rfl,
    List.mem_map] at hr
  obtain ⟨r0, _, rfl⟩ := hr
  rw [List.mem_map] at hp
  obtain ⟨q, _, rfl⟩ := hp
  by_cases hq : q.2 = Val.null <;> simp [hq]

theorem convertNonObject_NoNulls (d : Dataset) (hd : d.NoNulls) :
    (convertNonObject d).NoNulls := by
  intro r hr p hp
  rw [show (convertNonObject d).rows = d.rows.map (fun r => r.map (fun q =>
      if d.dtypeOf q.1 = Dtype.object then q else (q.1, toInt64 q.2))) from rfl,
    List.mem_map] at hr
  obtain ⟨r0, hr0, rfl⟩ := hr
  rw [List.mem_map] at hp
  obtain ⟨q, hq, rfl⟩ := hp
  by_cases hob : d.dtypeOf q.1 = Dtype.object
  · rw [if_pos hob]
    exact hd r0 hr0 q hq
  · rw [if_neg hob]
    obtain ⟨n, hn⟩ := toInt64_is_int q.2
    simp [hn]

theorem convertNonObject_IntTyped (d : Dataset) : (convertNonObject d).IntTyped := by
  intro r hr p hp hdt
  rw [convertNonObject_dtypeOf] at hdt
  rw [show (convertNonObject d).rows = d.rows.map (fun r => r.map (fun q =>
      if d.dtypeOf q.1 = Dtype.object then q else (q.1, toInt64 q.2))) from rfl,
    List.mem_map] at hr
  obtain ⟨r0, hr0, rfl⟩ := hr
  rw [List.mem_map] at hp
  obtain ⟨q, hq, rfl⟩ := hp
  have hfst : ((fun q => if d.dtypeOf q.1 = Dtype.object then q
      else (q.1, toInt64 q.2)) q).1 = q.1 := by
    by_cases hob : d.dtypeOf q.1 = Dtype.object <;> simp [hob]
  rw [hfst] at hdt
  have hob : d.dtypeOf q.1 ≠ Dtype.object := by
    intro he
    rw [if_pos he] at hdt
    exact hdt rfl
  rw [if_neg hob]
  exact toInt64_is_int q.2

theorem dropColumn_not_mem (df : Dataset) (c : String) :
    c ∉ (dropColumn df c).colNames := by
  intro hmem
  rw [Dataset.colNames,
    show (dropColumn df c).cols = df.cols.filter (fun p => decide (p.1 ≠ c)) from rfl,
    List.mem_map] at hmem
  obtain ⟨p, hp, hp1⟩ := hmem
  rw [List.mem_filter] at hp
  exact (of_decide_eq_true hp.2) hp1

theorem convertNonObject_colNames (d : Dataset) :
    (convertNonObject d).colNames = d.colNames := by
  rw [Dataset.colNames, convertNonObject_cols_snd, List.map_map]
  rfl

/-- C5: after a successful load-and-clean, the `tahun` column is gone,
no `NaN` remains in any record, every non-dimension (non-`object`)
column holds only integers, and the invariant persists because no query
operation ever changes the Dataset. -/
theorem clean_establishes_invariants (df df' : Dataset)
    (h : clean df = some df') :
    "tahun" ∉ df'.colNames ∧ df'.NoNulls ∧ df'.IntTyped
      ∧ ∀ prog : List QueryOp, (runProg df' prog).2 = df' := by
  unfold clean at h
  by_cases ht : "tahun" ∈ df.colNames
  · rw [if_pos ht] at h
    injection h with h
    subst h
    refine ⟨?_, convertNonObject_NoNulls _ (fillna0_NoNulls _),
      convertNonObject_IntTyped _, fun prog => runProg_state prog _⟩
    rw [convertNonObject_colNames]
    exact dropColumn_not_mem df "tahun"
  · rw [if_neg ht] at h
    exact absurd h (by simp)

/-- Witness for C5: cleaning the concrete raw sample establishes all
the invariants on its cleaned form. -/
theorem clean_establishes_invariants_witness :
    ("tahun" ∉ dkiClean.colNames) ∧ dkiClean.NoNulls ∧ dkiClean.IntTyped
      ∧ (runProg dkiClean [QueryOp.selectAll]).2 = dkiClean :=
  ⟨(clean_establishes_invariants dkiRaw dkiClean (by decide)).1,
   (clean_establishes_invariants dkiRaw dkiClean (by decide)).2.1,
   (clean_establishes_invariants dkiRaw dkiClean (by decide)).2.2.1,
   (clean_establishes_invariants dkiRaw dkiClean (by decide)).2.2.2
     [QueryOp.selectAll]⟩

/-- C6: when both boundary columns are present, `get_column_names`
returns exactly the columns whose position lies between the two
boundary positions, inclusive, in the Dataset's native left-to-right
order (the filter keeps native order by construction). -/
theorem get_column_names_between (df : Dataset) (from_ until_ : String)
    (hnd : df.colNames.Nodup) (hf : from_ ∈ df.colNames)
    (hu : until_ ∈ df.colNames) :
    get_column_names df from_ until_
      = some (df.colNames.filter (fun c =>
          decide (df.colNames.indexOf from_ ≤ df.colNames.indexOf c)
            && decide (df.colNames.indexOf c ≤ df.colNames.indexOf until_))) := by
  unfold get_column_names
  rw [if_pos ⟨hf, hu⟩,
    drop_take_eq_filter_indexOf df.colNames hnd
      (df.colNames.indexOf from_) (df.colNames.indexOf until_)]

/-- Witness for C6: on the documented layout, slicing from the province
column to the city column yields exactly those two dimension columns in
source order. -/
theorem get_column_names_between_witness :
    get_column_names dkiClean "nama_provinsi" "nama_kabupaten/kota"
      = some ["nama_provinsi", "nama_kabupaten/kota"] :=
  (get_column_names_between dkiClean "nama_provinsi" "nama_kabupaten/kota"
    (by decide) (by decide) (by decide)).trans (by decide)

/-- C10: the records of every `summary_total_by` result appear in
strictly ascending order of their group-key tuples (the
`groupby(sort=True)` policy, uniform across all granularities), and on
concrete data the ascending order differs from first-seen source order. -/
theorem summary_records_sorted :
    (∀ (df : Dataset) (groups : List String) (filters : List (String × String)),
      groups.Nodup →
      List.Pairwise (fun r₁ r₂ =>
        keyLE (keyOf groups r₁) (keyOf groups r₂) = true
          ∧ keyOf groups r₁ ≠ keyOf groups r₂)
        (summary_total_by df groups filters).records)
    ∧ (summary_total_by dkiClean ["nama_kabupaten/kota"] []).records.map
        (fun r => rowVal r "nama_kabupaten/kota")
        = [Val.str "JAKARTA BARAT", Val.str "JAKARTA UTARA"]
    ∧ dkiClean.rows.map (fun r => rowVal r "nama_kabupaten/kota")
        = [Val.str "JAKARTA UTARA", Val.str "JAKARTA UTARA",
           Val.str "JAKARTA BARAT"] := by
  refine ⟨?_, by decide, by decide⟩
  intro df groups filters hnd
  rw [records_summary_total_by]
  unfold summaryData groupSummaries
  rw [List.pairwise_map]
  have hkeys : ∀ k ∈ sortedKeys groups (summaryRows df groups filters),
      keyOf groups
        (summaryRecord df groups (summaryRows df groups filters) k) = k := by
    intro k hk
    rw [mem_sortedKeys_iff, List.mem_map] at hk
    obtain ⟨r, _, rfl⟩ := hk
    exact keyOf_summaryRecord _ _ hnd (by simp [keyOf])
  have hsorted : List.Pairwise (fun k₁ k₂ => keyLE k₁ k₂ = true)
      (sortedKeys groups (summaryRows df groups filters)) :=
    List.sorted_insertionSort _ _
  have hnodup := sortedKeys_nodup groups (summaryRows df groups filters)
  apply List.Pairwise.imp_of_mem ?_ (hsorted.and hnodup)
  intro a b ha hb hab
  rw [hkeys a ha, hkeys b hb]
  exact hab

/-- Witness for C10: the per-city summary records of the concrete
Dataset are pairwise strictly ascending in their city keys. -/
theorem summary_records_sorted_witness :
    List.Pairwise (fun r₁ r₂ =>
      keyLE (keyOf ["nama_kabupaten/kota"] r₁)
          (keyOf ["nama_kabupaten/kota"] r₂) = true
        ∧ keyOf ["nama_kabupaten/kota"] r₁ ≠ keyOf ["nama_kabupaten/kota"] r₂)
      (summary_total_by dkiClean ["nama_kabupaten/kota"] []).records :=
  summary_records_sorted.1 dkiClean ["nama_kabupaten/kota"] [] (by decide)

/-- C1 counterexample: take the Dataset `exMeasureGrouped` (a dimension
column `city` and an integer measure column `n`, two identical rows)
and the filter-free call grouping by `["city", "n"]` — group fields
that are all columns of the Dataset.  For the measure field `n` the
returned records sum to `1` while the Dataset sums to `2`: totals are
not conserved when a measure field is itself a group field. -/
theorem summary_conservation_counterexample :
    exMeasureGrouped.WF
    ∧ exMeasureGrouped.NoNulls
    ∧ (∀ g ∈ (["city", "n"] : List String), g ∈ exMeasureGrouped.colNames)
    ∧ exMeasureGrouped.dtypeOf "n" = Dtype.int64
    ∧ ((summary_total_by exMeasureGrouped ["city", "n"] []).records.map
        (fun r => valToInt (rowVal r "n"))).sum = 1
    ∧ (exMeasureGrouped.rows.map (fun r => valToInt (rowVal r "n"))).sum = 2 := by
  refine ⟨by decide, by decide, by decide, by decide, by decide, by decide⟩

/-- C1 (amended): for every filter-free `summary_total_by` over group
fields that are all columns of the Dataset, and every measure field
that is not itself a group field, the sum of that field over the
returned records equals its sum over the whole Dataset. -/
theorem summary_conserves_totals (df : Dataset) (groups : List String)
    (m : String) (hwf : df.WF) (hnn : df.NoNulls)
    (hg : ∀ g ∈ groups, g ∈ df.colNames)
    (hm : df.dtypeOf m = Dtype.int64) (hmg : m ∉ groups) :
    ((summary_total_by df groups []).records.map
      (fun r => valToInt (rowVal r m))).sum
      = (df.rows.map (fun r => valToInt (rowVal r m))).sum := by
  rw [records_summary_total_by]
  unfold summaryData groupSummaries
  rw [summaryRows_no_filters hwf hnn hg, List.map_map]
  have hmm : m ∈ measureCols df groups :=
    mem_measureCols (by rw [hm]; simp) hmg
  have hrec : ∀ k, valToInt (rowVal (summaryRecord df groups df.rows k) m)
      = ((df.rows.filter (fun r => decide (keyOf groups r = k))).map
          (fun r => valToInt (rowVal r m))).sum := by
    intro k
    rw [rowVal_summaryRecord_measure df groups df.rows k hmm hmg]
    unfold colSum
    rw [if_neg (by rw [hm]; simp)]
    rfl
  have hmapc : (sortedKeys groups df.rows).map
      ((fun r => valToInt (rowVal r m)) ∘ summaryRecord df groups df.rows)
      = (sortedKeys groups df.rows).map (fun k =>
        ((df.rows.filter (fun r => decide (keyOf groups r = k))).map
          (fun r => valToInt (rowVal r m))).sum) :=
    List.map_congr_left (fun k _ => hrec k)
  rw [hmapc]
  exact sum_partition (keyOf groups) (fun r => valToInt (rowVal r m))
    (sortedKeys groups df.rows) df.rows
    (sortedKeys_nodup groups df.rows)
    (fun r hr => mem_sortedKeys_iff.mpr (List.mem_map_of_mem _ hr))

/-- Witness for C1: on the concrete cleaned Dataset, the per-city `sd`
totals sum to the Dataset-wide `sd` total. -/
theorem summary_conserves_totals_witness :
    ((summary_total_by dkiClean ["nama_kabupaten/kota"] []).records.map
      (fun r => valToInt (rowVal r "sd"))).sum
      = (dkiClean.rows.map (fun r => valToInt (rowVal r "sd"))).sum :=
  summary_conserves_totals dkiClean ["nama_kabupaten/kota"] "sd"
    (by decide) (by decide) (by decide) (by decide) (by decide)
